import Mathlib

/-!
A verification model of the `xcache` LIRS engine and its sharded front end.

This file gives a shallow embedding of the LIRS (Low Inter-reference
Recency Set) cache engine (`lirs.go`) and the statistics-keeping sharded
front end (`xcache.go`) of the `xcache` library, together with theorems
about the embedded operations.

Modelling conventions:

* Keys are `Nat`; the engine is generic in the stored value type `α`
  (Go stores `interface{}` values).
* Go's `container/list` doubly-linked lists (stack S and queue Q) are
  modelled as `List Nat` of keys, front of the Go list = head of the Lean
  list.  The Go item fields `stackElem != nil` / `queueElem != nil` are
  modelled as the booleans `inStack` / `inQueue`.  In every state the Go
  code can reach, each key occurs at most once in each list, so
  `List.erase` models `list.Remove` of an element.
* The Go `map[interface{}]*lirsItem` is modelled as an association list;
  items are shared mutable structs in Go, so every field mutation is an
  in-place update of the association list and items are always re-read
  from it.
* Time (`time.Time`) is modelled as `Int`, `time.Duration` as `Int`;
  `t1.Before(t2)` is `t1 < t2`.  The injected `Clock` stored in each item
  is modelled by passing the clock's current reading `fakeNow` to each
  operation; the real system clock `time.Now()` used by `Has`, `Keys`,
  `GetALL` and `Len` is the separate parameter `realNow`.
* `serializeFunc` and `deserializeFunc` are not configured (`nil`),
  which is the default configuration.
* The `evictedFunc` callback is modelled as present: each invocation is
  recorded by prepending `(key, value)` to the `evictedLog` field.
  `addedFunc` and `purgeVisitorFunc` do not affect engine state and are
  not modelled.
-/

deriving instance DecidableEq for Except

namespace Xcache

/-- Errors surfaced by the cache (`ErrKeyNotFoundError`, loader errors
returned verbatim, and the sharded layer's "type assertion failed"). -/
inductive CacheErr where
  | keyNotFound
  | loaderError (code : Nat)
  | typeAssertionFailed
deriving Repr, DecidableEq

/-- Go `lirsItem`: one cached entry.  `inStack`/`inQueue` model
`stackElem != nil` / `queueElem != nil`. -/
structure LirsItem (α : Type) where
  key : Nat
  value : α
  expiration : Option Int
  isLIR : Bool
  isResident : Bool
  inStack : Bool
  inQueue : Bool
deriving Repr, DecidableEq

/-- Go `LIRSCache`: the engine state.  The fields `size` and
`expirationTTL` come from the embedded `baseCache` (whose source file is
not part of the sources; per the spec it carries the capacity, the
default TTL, the clock and the statistics counters).  `hitCount` and
`missCount` are the per-shard statistics counters (modelled from the
spec: thread-safe hit/miss counters incremented by the engine).
`evictedLog` records the `evictedFunc` invocations, most recent first. -/
structure LIRSCache (α : Type) where
  size : Nat
  maxLirCount : Int
  maxHirCount : Int
  expirationTTL : Option Int
  stackS : List Nat
  queueQ : List Nat
  items : List (Nat × LirsItem α)
  lirCount : Int
  hitCount : Nat
  missCount : Nat
  evictedLog : List (Nat × α)
deriving Repr, DecidableEq

variable {α : Type}

/-- Lookup in the item map (`c.items[key]`). -/
def lookupItem : List (Nat × LirsItem α) → Nat → Option (LirsItem α)
  | [], _ => none
  | (k', it) :: rest, k => if k' = k then some it else lookupItem rest k

/-- In-place field update of the item bound to `k` (mutation of the
shared `*lirsItem` in Go). -/
def updateItem : List (Nat × LirsItem α) → Nat → (LirsItem α → LirsItem α) →
    List (Nat × LirsItem α)
  | [], _, _ => []
  | (k', it) :: rest, k, f =>
      if k' = k then (k', f it) :: rest else (k', it) :: updateItem rest k f

/-- Go `delete(c.items, key)`.  Keys are unique in every reachable map, so
removing every binding of `k` models Go's `delete`. -/
def eraseKey (its : List (Nat × LirsItem α)) (k : Nat) : List (Nat × LirsItem α) :=
  its.filter (fun p => p.1 ≠ k)

/-- Go `newLIRSCache`: `maxLirCount = int(float64(size) * 0.99)` with the
fallback `size - 1` when that is `< 1`, and `maxHirCount = size -
maxLirCount` clamped to at least 1.  The float computation
`int(float64(size)*0.99)` agrees with the exact `⌊99·size/100⌋` used here
for all the capacities this file evaluates. -/
def newLIRSCache (α : Type) (size : Nat) (ttl : Option Int) : LIRSCache α :=
  let maxLir0 : Int := ((99 * size) / 100 : Nat)
  let maxLir : Int := if maxLir0 < 1 then (size : Int) - 1 else maxLir0
  let maxHir0 : Int := (size : Int) - maxLir
  let maxHir : Int := if maxHir0 < 1 then 1 else maxHir0
  { size := size, maxLirCount := maxLir, maxHirCount := maxHir,
    expirationTTL := ttl, stackS := [], queueQ := [], items := [],
    lirCount := 0, hitCount := 0, missCount := 0, evictedLog := [] }

/-- Go `lirsItem.IsExpired`: when `now` is `nil` the item's injected clock
(current reading `fakeNow`) supplies the instant; expiry is strict
`expiration.Before(now)`. -/
def LirsItem.IsExpired (it : LirsItem α) (now : Option Int) (fakeNow : Int) : Bool :=
  match it.expiration with
  | none => false
  | some e =>
    match now with
    | some n => decide (e < n)
    | none => decide (e < fakeNow)

/-- Go `getResidentCount`. -/
def getResidentCount (c : LIRSCache α) : Nat :=
  (c.items.filter (fun p => p.2.isResident)).length

/-- Go `getStackBottom` (bottom = back of S). -/
def getStackBottom (c : LIRSCache α) : Option (LirsItem α) :=
  match c.stackS.getLast? with
  | none => none
  | some k => lookupItem c.items k

/-- Go `isStackBottom` for the item bound to key `k`. -/
def isStackBottom (c : LIRSCache α) (k : Nat) : Bool :=
  match lookupItem c.items k with
  | none => false
  | some it => it.inStack && c.stackS.getLast? = some k

/-- Go `insertIntoStack`: remove the existing stack element if any, then
push the item at the front (top) of S. -/
def insertIntoStack (c : LIRSCache α) (k : Nat) : LIRSCache α :=
  let c :=
    match lookupItem c.items k with
    | some it => if it.inStack then { c with stackS := c.stackS.erase k } else c
    | none => c
  { c with stackS := k :: c.stackS,
           items := updateItem c.items k (fun it => { it with inStack := true }) }

/-- Go `moveToStackTop`. -/
def moveToStackTop (c : LIRSCache α) (k : Nat) : LIRSCache α :=
  match lookupItem c.items k with
  | some it =>
      if it.inStack then { c with stackS := k :: c.stackS.erase k }
      else insertIntoStack c k
  | none => insertIntoStack c k

/-- Go `insertIntoQueue`: remove the existing queue element if any, then
push the item at the back (end) of Q. -/
def insertIntoQueue (c : LIRSCache α) (k : Nat) : LIRSCache α :=
  let c :=
    match lookupItem c.items k with
    | some it => if it.inQueue then { c with queueQ := c.queueQ.erase k } else c
    | none => c
  { c with queueQ := c.queueQ ++ [k],
           items := updateItem c.items k (fun it => { it with inQueue := true }) }

/-- Go `moveToQueueEnd`. -/
def moveToQueueEnd (c : LIRSCache α) (k : Nat) : LIRSCache α :=
  match lookupItem c.items k with
  | some it =>
      if it.inQueue then { c with queueQ := c.queueQ.erase k ++ [k] }
      else insertIntoQueue c k
  | none => insertIntoQueue c k

/-- Go `evictFromQ`: drop the front of Q, mark it non-resident (it keeps
its place in S and in the map) and invoke `evictedFunc`. -/
def evictFromQ (c : LIRSCache α) : LIRSCache α :=
  match c.queueQ with
  | [] => c
  | k :: rest =>
    match lookupItem c.items k with
    | none => c
    | some it =>
      { c with queueQ := rest,
               items := updateItem c.items k
                 (fun it => { it with inQueue := false, isResident := false }),
               evictedLog := (k, it.value) :: c.evictedLog }

/-- One iteration step of `pruneStack`, driven by fuel bounded by the
stack length (each iteration removes the bottom element). -/
def pruneStackAux (c : LIRSCache α) : Nat → LIRSCache α
  | 0 => c
  | n + 1 =>
    match c.stackS.getLast? with
    | none => c
    | some k =>
      match lookupItem c.items k with
      | none => c
      | some it =>
        if it.isLIR then c
        else
          pruneStackAux
            { c with stackS := c.stackS.dropLast,
                     items := updateItem c.items k
                       (fun it => { it with inStack := false }) } n

/-- Go `pruneStack`: remove HIR entries from the bottom of S until the
bottom is an LIR entry or S is empty.  Removed entries stay in the item
map; only their stack link is cleared. -/
def pruneStack (c : LIRSCache α) : LIRSCache α :=
  pruneStackAux c c.stackS.length

/-- Go `convertToHIR`: demote an LIR entry to HIR; drop it from S only when
it sits at the bottom; enqueue it if resident. -/
def convertToHIR (c : LIRSCache α) (k : Nat) : LIRSCache α :=
  let wasBottom := isStackBottom c k
  let c := { c with items := updateItem c.items k (fun it => { it with isLIR := false }),
                    lirCount := c.lirCount - 1 }
  let c :=
    if wasBottom then
      { c with stackS := c.stackS.dropLast,
               items := updateItem c.items k (fun it => { it with inStack := false }) }
    else c
  match lookupItem c.items k with
  | some it => if it.isResident then insertIntoQueue c k else c
  | none => c

/-- Go `convertToLIR`: promote an HIR entry to LIR, with the defensive
demote-and-evict when the cache is at capacity, then prune. -/
def convertToLIR (c : LIRSCache α) (k : Nat) : LIRSCache α :=
  let c :=
    if getResidentCount c ≥ c.size then
      match c.stackS.getLast? with
      | some bk =>
        match lookupItem c.items bk with
        | some bit =>
            if bit.isLIR && bk ≠ k then evictFromQ (convertToHIR c bk) else c
        | none => c
      | none => c
    else c
  let c := { c with items := updateItem c.items k (fun it => { it with isLIR := true }),
                    lirCount := c.lirCount + 1 }
  let c :=
    match lookupItem c.items k with
    | some it =>
        if it.inQueue then
          { c with queueQ := c.queueQ.erase k,
                   items := updateItem c.items k (fun it => { it with inQueue := false }) }
        else c
    | none => c
  let c := moveToStackTop c k
  let c :=
    match c.stackS.getLast? with
    | some bk =>
      match lookupItem c.items bk with
      | some bit => if bk ≠ k && bit.isLIR then convertToHIR c bk else c
      | none => c
    | none => c
  pruneStack c

/-- Go `removeItem`: unlink from S and Q, fix `lirCount`, delete from the
map, and invoke `evictedFunc` iff the entry was resident. -/
def removeItem (c : LIRSCache α) (k : Nat) : LIRSCache α :=
  match lookupItem c.items k with
  | none => c
  | some it =>
    let c := if it.inStack then { c with stackS := c.stackS.erase k } else c
    let c := if it.inQueue then { c with queueQ := c.queueQ.erase k } else c
    let c := if it.isLIR then { c with lirCount := c.lirCount - 1 } else c
    let c := { c with items := eraseKey c.items k }
    if it.isResident then { c with evictedLog := (k, it.value) :: c.evictedLog } else c

/-- Go `evictLeastRecentItem`: evict the front of Q if Q is non-empty, else
remove the bottom-of-S entry when it is LIR (otherwise do nothing). -/
def evictLeastRecentItem (c : LIRSCache α) : LIRSCache α :=
  if c.queueQ.length > 0 then evictFromQ c
  else
    match c.stackS.getLast? with
    | some bk =>
      match lookupItem c.items bk with
      | some bit => if bit.isLIR then removeItem c bk else c
      | none => c
    | none => c

/-- Go `accessItem`: the LIRS classification rules applied on access to an
existing item. -/
def accessItem (c : LIRSCache α) (k : Nat) : LIRSCache α :=
  match lookupItem c.items k with
  | none => c
  | some it =>
    if it.isLIR then
      let c := moveToStackTop c k
      if isStackBottom c k then pruneStack c else c
    else
      if it.isResident then
        if it.inStack then convertToLIR c k
        else moveToQueueEnd c k
      else
        if it.inStack then
          let c := if getResidentCount c ≥ c.size then evictLeastRecentItem c else c
          let its := updateItem c.items k (fun it => { it with isResident := true })
          let c := { c with items := its }
          let c := convertToLIR c k
          insertIntoStack c k
        else
          let c := if getResidentCount c ≥ c.size then evictLeastRecentItem c else c
          let its := updateItem c.items k (fun it => { it with isResident := true })
          let c := { c with items := its }
          let c := insertIntoQueue c k
          insertIntoStack c k

/-- The internal `set` (with `serializeFunc = nil`). -/
def setInternal (c : LIRSCache α) (k : Nat) (v : α) (fakeNow : Int) : LIRSCache α :=
  match lookupItem c.items k with
  | some _ =>
    let c := { c with items := updateItem c.items k (fun it => { it with value := v }) }
    let c :=
      match c.expirationTTL with
      | some ttl =>
          let its := updateItem c.items k (fun it => { it with expiration := some (fakeNow + ttl) })
          { c with items := its }
      | none => c
    accessItem c k
  | none =>
    let c := if getResidentCount c ≥ c.size then evictLeastRecentItem c else c
    let isLir := decide (c.lirCount < c.maxLirCount)
    let newIt : LirsItem α :=
      { key := k, value := v,
        expiration := c.expirationTTL.map (fun ttl => fakeNow + ttl),
        isLIR := isLir, isResident := true, inStack := false, inQueue := false }
    let c := { c with items := c.items ++ [(k, newIt)],
                      lirCount := if isLir then c.lirCount + 1 else c.lirCount }
    let c := insertIntoStack c k
    if isLir then c else insertIntoQueue c k

/-- Public `Set`. -/
def Set (c : LIRSCache α) (k : Nat) (v : α) (fakeNow : Int) : LIRSCache α :=
  setInternal c k v fakeNow

/-- Public `SetWithExpire`: `set` then overwrite the item's expiration
with `clock.Now().Add(expiration)`. -/
def SetWithExpire (c : LIRSCache α) (k : Nat) (v : α) (ttl : Int) (fakeNow : Int) :
    LIRSCache α :=
  let c := setInternal c k v fakeNow
  let its := updateItem c.items k (fun it => { it with expiration := some (fakeNow + ttl) })
  { c with items := its }

/-- Go `getValue`: the locked lookup behind `get`.  Expiry uses the item's
injected clock (`IsExpired(nil)`). -/
def getValue (c : LIRSCache α) (k : Nat) (onLoad : Bool) (fakeNow : Int) :
    Except CacheErr α × LIRSCache α :=
  match lookupItem c.items k with
  | none =>
    (Except.error CacheErr.keyNotFound,
      if onLoad then c else { c with missCount := c.missCount + 1 })
  | some it =>
    if !(it.IsExpired none fakeNow) && it.isResident then
      let c := accessItem c k
      let c := if onLoad then c else { c with hitCount := c.hitCount + 1 }
      (Except.ok it.value, c)
    else
      let c := if it.IsExpired none fakeNow then removeItem c k else c
      let c := if onLoad then c else { c with missCount := c.missCount + 1 }
      (Except.error CacheErr.keyNotFound, c)

/-- A configured loader (`loaderExpireFunc`): returns a value with an
optional TTL, or an error code. -/
def LirsLoader (α : Type) : Type := Nat → Except Nat (α × Option Int)

/-- Modelled from the spec: `baseCache.load` and the single-flight
`loadGroup` are not among the sources.  Per the spec, the group invokes
the loader at most once per outstanding miss and hands its result
`(value, ttl?, err)` to the insertion callback, returning the callback's
result to every waiter.  In this sequential model there are no concurrent
waiters, so `load` simply evaluates the loader and applies the callback. -/
def load (f : LirsLoader α) (k : Nat)
    (cb : Except Nat (α × Option Int) → Except CacheErr α × LIRSCache α) :
    Except CacheErr α × LIRSCache α :=
  cb (f k)

/-- Go `getWithLoader` with its insertion callback: a loader error is
returned without touching the cache; on success the value is `set` and
the loader-provided TTL (if any) installed.  `isWait` has no effect in
the sequential model. -/
def getWithLoader (c : LIRSCache α) (loader : Option (LirsLoader α)) (k : Nat)
    (_isWait : Bool) (fakeNow : Int) : Except CacheErr α × LIRSCache α :=
  match loader with
  | none => (Except.error CacheErr.keyNotFound, c)
  | some f =>
    load f k (fun r =>
      match r with
      | Except.error e => (Except.error (CacheErr.loaderError e), c)
      | Except.ok (v, ttlOpt) =>
        let c := setInternal c k v fakeNow
        let c :=
          match ttlOpt with
          | some ttl =>
              let its := updateItem c.items k (fun it => { it with expiration := some (fakeNow + ttl) })
              { c with items := its }
          | none => c
        (Except.ok v, c))

/-- Public `Get` (with `deserializeFunc = nil`, `get` is `getValue`):
on `ErrKeyNotFoundError` fall through to the loader. -/
def Get (c : LIRSCache α) (loader : Option (LirsLoader α)) (k : Nat) (fakeNow : Int) :
    Except CacheErr α × LIRSCache α :=
  let r := getValue c k false fakeNow
  match r.1 with
  | Except.error CacheErr.keyNotFound => getWithLoader r.2 loader k true fakeNow
  | _ => r

/-- Public `GetIFPresent`: as `Get` but with `isWait = false`. -/
def GetIFPresent (c : LIRSCache α) (loader : Option (LirsLoader α)) (k : Nat)
    (fakeNow : Int) : Except CacheErr α × LIRSCache α :=
  let r := getValue c k false fakeNow
  match r.1 with
  | Except.error CacheErr.keyNotFound => getWithLoader r.2 loader k false fakeNow
  | _ => r

/-- Public `Peek` (with `deserializeFunc = nil`): a read-only lookup
under the read lock; the method performs no writes, so it is a pure
function of the state. -/
def Peek (c : LIRSCache α) (k : Nat) (fakeNow : Int) : Except CacheErr α :=
  match lookupItem c.items k with
  | none => Except.error CacheErr.keyNotFound
  | some it =>
    if !(it.IsExpired none fakeNow) && it.isResident then Except.ok it.value
    else Except.error CacheErr.keyNotFound

/-- The internal `has`: called with an explicit `now` (never `nil`). -/
def hasK (c : LIRSCache α) (k : Nat) (now : Int) : Bool :=
  match lookupItem c.items k with
  | none => false
  | some it => !(it.IsExpired (some now) now) && it.isResident

/-- Public `Has`: evaluates `now` from the real system clock
(`time.Now()`), not from the injected clock. -/
def Has (c : LIRSCache α) (k : Nat) (realNow : Int) : Bool :=
  hasK c k realNow

/-- Public `Remove`. -/
def Remove (c : LIRSCache α) (k : Nat) : Bool × LIRSCache α :=
  match lookupItem c.items k with
  | none => (false, c)
  | some _ => (true, removeItem c k)

/-- Public `GetALL`: resident entries, optionally filtered by `has`
against the real clock. -/
def GetALL (c : LIRSCache α) (checkExpired : Bool) (realNow : Int) : List (Nat × α) :=
  (c.items.filter
    (fun p => p.2.isResident && (!checkExpired || hasK c p.1 realNow))).map
    (fun p => (p.1, p.2.value))

/-- Public `Keys`: every tracked key (resident or not), optionally
filtered by `has` against the real clock. -/
def Keys (c : LIRSCache α) (checkExpired : Bool) (realNow : Int) : List Nat :=
  ((c.items.filter (fun p => !checkExpired || hasK c p.1 realNow)).map Prod.fst)

/-- Public `Len`: with `checkExpired = false` count resident entries,
else count entries passing `has` against the real clock. -/
def Len (c : LIRSCache α) (checkExpired : Bool) (realNow : Int) : Nat :=
  if !checkExpired then (c.items.filter (fun p => p.2.isResident)).length
  else (c.items.filter (fun p => hasK c p.1 realNow)).length

/-- Public `Purge`: reset all policy structures. -/
def Purge (c : LIRSCache α) : LIRSCache α :=
  { c with stackS := [], queueQ := [], items := [], lirCount := 0 }


/-- Well-formedness of an engine state, as maintained by the Go code:
each key occurs at most once in S and in Q, every key linked into S or Q
is bound in the item map, and the `inStack`/`inQueue` flags (modelling
`stackElem != nil` / `queueElem != nil`) agree with actual membership.
Every state the Go code can reach satisfies this. -/
def wfCheck (c : LIRSCache α) : Bool :=
  decide c.stackS.Nodup && decide c.queueQ.Nodup &&
  c.stackS.all (fun k => (lookupItem c.items k).isSome) &&
  c.queueQ.all (fun k => (lookupItem c.items k).isSome) &&
  c.items.all (fun p =>
    (p.2.inStack = decide (p.1 ∈ c.stackS)) && (p.2.inQueue = decide (p.1 ∈ c.queueQ)))

/-- Untyped values stored by the engine (`interface{}` in Go): the
typed front end down-casts them to its value type `V` (here `Int`). -/
inductive GoVal where
  | vInt (n : Int)
  | vBool (b : Bool)
deriving Repr, DecidableEq

/-- The `V = Int` type assertion (`value.(V)`). -/
def asInt : GoVal → Option Int
  | GoVal.vInt n => some n
  | _ => none

/-- Sharded front end `XCache[K, V]` with `V = Int`, specialised to one
bucket (`BucketCount(1)` makes `getBucket` select bucket 0 for every
key, since `hash % 1 = 0`).  `hitCount`/`missCount` model the
`stats` counters maintained at the sharded layer (the `stats` source
file is not among the sources; per the spec they are plain thread-safe
hit/miss counters). -/
structure XCacheSt where
  bucket : LIRSCache GoVal
  hitCount : Nat
  missCount : Nat
deriving Repr, DecidableEq

/-- Sharded `XCache.Get`: forward to the bucket; on
`ErrKeyNotFoundError` increment the shard-layer miss counter and return
the error; on any other error return it; on success increment the
shard-layer hit counter and then attempt the `V` type assertion. -/
def XCacheGet (x : XCacheSt) (loader : Option (LirsLoader GoVal)) (k : Nat)
    (fakeNow : Int) : Except CacheErr Int × XCacheSt :=
  let r := Get x.bucket loader k fakeNow
  match r.1 with
  | Except.error e =>
    if e = CacheErr.keyNotFound then
      (Except.error e, { bucket := r.2, hitCount := x.hitCount,
                         missCount := x.missCount + 1 })
    else
      (Except.error e, { bucket := r.2, hitCount := x.hitCount,
                         missCount := x.missCount })
  | Except.ok v =>
    let x' : XCacheSt := { bucket := r.2, hitCount := x.hitCount + 1,
                           missCount := x.missCount }
    match asInt v with
    | some n => (Except.ok n, x')
    | none => (Except.error CacheErr.typeAssertionFailed, x')

/-- Sharded `XCache.GetIFPresent`: same counter logic as `XCacheGet`
around the bucket's `GetIFPresent`. -/
def XCacheGetIFPresent (x : XCacheSt) (loader : Option (LirsLoader GoVal)) (k : Nat)
    (fakeNow : Int) : Except CacheErr Int × XCacheSt :=
  let r := GetIFPresent x.bucket loader k fakeNow
  match r.1 with
  | Except.error e =>
    if e = CacheErr.keyNotFound then
      (Except.error e, { bucket := r.2, hitCount := x.hitCount,
                         missCount := x.missCount + 1 })
    else
      (Except.error e, { bucket := r.2, hitCount := x.hitCount,
                         missCount := x.missCount })
  | Except.ok v =>
    let x' : XCacheSt := { bucket := r.2, hitCount := x.hitCount + 1,
                           missCount := x.missCount }
    match asInt v with
    | some n => (Except.ok n, x')
    | none => (Except.error CacheErr.typeAssertionFailed, x')

/-- Sharded `XCache.Peek`: forward to the bucket's `Peek` and apply the
type assertion; no statistics counter is touched and the engine
performs no writes, so the state is returned unchanged. -/
def XCachePeek (x : XCacheSt) (k : Nat) (fakeNow : Int) :
    Except CacheErr Int × XCacheSt :=
  match Peek x.bucket k fakeNow with
  | Except.error e => (Except.error e, x)
  | Except.ok v =>
    match asInt v with
    | some n => (Except.ok n, x)
    | none => (Except.error CacheErr.typeAssertionFailed, x)

/-!
Concrete states used by the theorems below.  All operations are public
API calls starting from a freshly constructed cache, so every one of
these states is reachable.
-/

/-- Capacity-2 LIRS cache after `Set 1; Set 2; Set 3` (at injected
clock 0, no TTLs): the third insert evicts key 2 from the front of Q,
leaving it in the map and in S as a non-resident HIR. -/
def threeSetState : LIRSCache Nat :=
  Set (Set (Set (newLIRSCache Nat 2 none) 1 10 0) 2 20 0) 3 30 0

/-- Capacity-2 LIRS cache after the nine public operations
`Set 2; Set 1; Remove 2; Set 3; Set 0; Set 2; Get 2; Set 3; Set 1`
(all at injected clock 0).  After the final `Set 1` the cache holds
three resident entries. -/
def c1State : LIRSCache Nat :=
  Set (Set ((Get (Set (Set (Set ((Remove (Set (Set
    (newLIRSCache Nat 2 none) 2 20 0) 1 10 0) 2).2) 3 30 0) 0 40 0) 2 21 0)
    none 2 0).2) 3 31 0) 1 11 0

/-- Capacity-2 LIRS cache holding one entry for key 1 with value 7 and
expiration instant 5 (set via `SetWithExpire` at injected clock 0 with
TTL 5). -/
def expiringState : LIRSCache Nat :=
  SetWithExpire (newLIRSCache Nat 2 none) 1 7 5 0

/-- Capacity-2 LIRS cache after `Set 2; Set 1; Remove 2`: the `Remove`
deletes the only LIR entry from the stack, leaving the resident HIR
entry 1 at the bottom of S with no re-prune. -/
def hirBottomState : LIRSCache Nat :=
  (Remove (Set (Set (newLIRSCache Nat 2 none) 2 20 0) 1 10 0) 2).2

/-- A fresh one-bucket sharded cache over a capacity-2 LIRS bucket. -/
def freshXCache : XCacheSt :=
  { bucket := newLIRSCache GoVal 2 none, hitCount := 0, missCount := 0 }

/-- A loader that always succeeds with the integer 7 and no TTL. -/
def constLoader : LirsLoader GoVal := fun _ => Except.ok (GoVal.vInt 7, none)

/-- A loader that always fails with error code 42. -/
def failLoader : LirsLoader Nat := fun _ => Except.error 42

/-- Property of a state: the stack is empty or its bottom entry is LIR. -/
def bottomIsLIR (c : LIRSCache α) : Bool :=
  match c.stackS.getLast? with
  | none => true
  | some k =>
    match lookupItem c.items k with
    | none => false
    | some it => it.isLIR

/-- Specification of the `evictedFunc` log produced by removing the
entry for `k`: one `(key, value)` record exactly when the removed entry
was resident. -/
def removeEvictLog (c : LIRSCache α) (k : Nat) : List (Nat × α) :=
  match lookupItem c.items k with
  | some it => if it.isResident then (k, it.value) :: c.evictedLog else c.evictedLog
  | none => c.evictedLog

/-!
Helper lemmas about the map primitives and about `removeItem` and
`pruneStack`, shared by the claim theorems below.
-/

theorem lookupItem_mem {its : List (Nat × LirsItem α)} {k : Nat} {it : LirsItem α}
    (h : lookupItem its k = some it) : (k, it) ∈ its := by
  induction its with
  | nil => simp [lookupItem] at h
  | cons p rest ih =>
    obtain ⟨k0, it0⟩ := p
    by_cases hk : k0 = k
    · subst hk
      simp [lookupItem] at h
      rw [← h]
      exact List.mem_cons_self _ _
    · simp only [lookupItem, if_neg hk] at h
      exact List.mem_cons_of_mem _ (ih h)

theorem lookupItem_updateItem_isSome (its : List (Nat × LirsItem α)) (k : Nat)
    (f : LirsItem α → LirsItem α) (k2 : Nat) :
    (lookupItem (updateItem its k f) k2).isSome = (lookupItem its k2).isSome := by
  induction its with
  | nil => rfl
  | cons p rest ih =>
    obtain ⟨k0, it0⟩ := p
    by_cases h0 : k0 = k
    · subst h0
      by_cases h2 : k0 = k2
      · subst h2
        simp [updateItem, lookupItem]
      · simp [updateItem, lookupItem, h2]
    · by_cases h2 : k0 = k2
      · subst h2
        simp [updateItem, lookupItem, h0]
      · simp [updateItem, lookupItem, h0, h2, ih]

theorem updateItem_map_fst (its : List (Nat × LirsItem α)) (k : Nat)
    (f : LirsItem α → LirsItem α) :
    (updateItem its k f).map Prod.fst = its.map Prod.fst := by
  induction its with
  | nil => rfl
  | cons p rest ih =>
    obtain ⟨k0, it0⟩ := p
    by_cases h0 : k0 = k <;> simp [updateItem, h0, ih]

theorem lookupItem_eraseKey_self (its : List (Nat × LirsItem α)) (k : Nat) :
    lookupItem (eraseKey its k) k = none := by
  induction its with
  | nil => rfl
  | cons p rest ih =>
    obtain ⟨k0, it0⟩ := p
    by_cases h0 : k0 = k
    · simpa [eraseKey, h0] using ih
    · simpa [eraseKey, lookupItem, h0] using ih

theorem mem_of_getLast?_eq {l : List Nat} {a : Nat} (h : l.getLast? = some a) :
    a ∈ l := by
  obtain ⟨ys, rfl⟩ := List.getLast?_eq_some_iff.mp h
  simp

theorem wf_parts {c : LIRSCache α} (hwf : wfCheck c = true) :
    c.stackS.Nodup ∧ c.queueQ.Nodup ∧
    (∀ k ∈ c.stackS, (lookupItem c.items k).isSome = true) ∧
    (∀ k ∈ c.queueQ, (lookupItem c.items k).isSome = true) ∧
    (∀ p ∈ c.items, p.2.inStack = decide (p.1 ∈ c.stackS) ∧
      p.2.inQueue = decide (p.1 ∈ c.queueQ)) := by
  simp only [wfCheck, Bool.and_eq_true, List.all_eq_true, decide_eq_true_eq] at hwf
  obtain ⟨⟨⟨⟨h1, h2⟩, h3⟩, h4⟩, h5⟩ := hwf
  exact ⟨h1, h2, h3, h4, h5⟩

theorem removeItem_lookup_self (c : LIRSCache α) (k : Nat) :
    lookupItem (removeItem c k).items k = none := by
  unfold removeItem
  cases h : lookupItem c.items k with
  | none => simpa using h
  | some it =>
    by_cases h1 : it.inStack <;> by_cases h2 : it.inQueue <;>
      by_cases h3 : it.isLIR <;> by_cases h4 : it.isResident <;>
      simp [h1, h2, h3, h4, lookupItem_eraseKey_self]

theorem removeItem_not_mem_stack (c : LIRSCache α) (k : Nat) (hwf : wfCheck c = true) :
    k ∉ (removeItem c k).stackS := by
  obtain ⟨hnds, -, hks, -, hflags⟩ := wf_parts hwf
  unfold removeItem
  cases h : lookupItem c.items k with
  | none =>
    intro hmem
    have := hks k hmem
    simp [h] at this
  | some it =>
    have herase : k ∉ c.stackS.erase k := hnds.not_mem_erase
    by_cases h1 : it.inStack
    · by_cases h2 : it.inQueue <;> by_cases h3 : it.isLIR <;> by_cases h4 : it.isResident <;>
        simp [h1, h2, h3, h4, herase]
    · rw [Bool.not_eq_true] at h1
      have hfl : it.inStack = decide (k ∈ c.stackS) :=
        (hflags (k, it) (lookupItem_mem h)).1
      rw [h1, eq_comm, decide_eq_false_iff_not] at hfl
      by_cases h2 : it.inQueue <;> by_cases h3 : it.isLIR <;> by_cases h4 : it.isResident <;>
        simp [h1, h2, h3, h4, hfl]

theorem removeItem_not_mem_queue (c : LIRSCache α) (k : Nat) (hwf : wfCheck c = true) :
    k ∉ (removeItem c k).queueQ := by
  obtain ⟨-, hndq, -, hkq, hflags⟩ := wf_parts hwf
  unfold removeItem
  cases h : lookupItem c.items k with
  | none =>
    intro hmem
    have := hkq k hmem
    simp [h] at this
  | some it =>
    have herase : k ∉ c.queueQ.erase k := hndq.not_mem_erase
    by_cases h2 : it.inQueue
    · by_cases h1 : it.inStack <;> by_cases h3 : it.isLIR <;> by_cases h4 : it.isResident <;>
        simp [h1, h2, h3, h4, herase]
    · rw [Bool.not_eq_true] at h2
      have hfl : it.inQueue = decide (k ∈ c.queueQ) :=
        (hflags (k, it) (lookupItem_mem h)).2
      rw [h2, eq_comm, decide_eq_false_iff_not] at hfl
      by_cases h1 : it.inStack <;> by_cases h3 : it.isLIR <;> by_cases h4 : it.isResident <;>
        simp [h1, h2, h3, h4, hfl]

theorem removeItem_evictedLog (c : LIRSCache α) (k : Nat) :
    (removeItem c k).evictedLog = removeEvictLog c k := by
  unfold removeItem removeEvictLog
  cases h : lookupItem c.items k with
  | none => rfl
  | some it =>
    by_cases h1 : it.inStack <;> by_cases h2 : it.inQueue <;>
      by_cases h3 : it.isLIR <;> by_cases h4 : it.isResident <;>
      simp [h1, h2, h3, h4]

theorem pruneStackAux_items_fst (n : Nat) :
    ∀ c : LIRSCache α, (pruneStackAux c n).items.map Prod.fst = c.items.map Prod.fst := by
  induction n with
  | zero => intro c; rfl
  | succ n ih =>
    intro c
    unfold pruneStackAux
    split
    · rfl
    · split
      · rfl
      · split
        · rfl
        · rw [ih]
          exact updateItem_map_fst _ _ _

theorem pruneStackAux_bottom (n : Nat) :
    ∀ c : LIRSCache α, (∀ k ∈ c.stackS, (lookupItem c.items k).isSome = true) →
      c.stackS.length ≤ n → bottomIsLIR (pruneStackAux c n) = true := by
  induction n with
  | zero =>
    intro c _ hlen
    have : c.stackS = [] := List.length_eq_zero.mp (Nat.le_zero.mp hlen)
    simp [pruneStackAux, bottomIsLIR, this]
  | succ n ih =>
    intro c hkeys hlen
    unfold pruneStackAux
    split
    next hb => simp [bottomIsLIR, hb]
    next k hb =>
      split
      next hl =>
        have := hkeys k (mem_of_getLast?_eq hb)
        simp [hl] at this
      next it hl =>
        split
        next h3 => simp [bottomIsLIR, hb, hl, h3]
        next h3 =>
          apply ih
          · intro k2 hk2
            rw [lookupItem_updateItem_isSome]
            exact hkeys k2 (List.mem_of_mem_dropLast hk2)
          · have h1 : c.stackS ≠ [] := by
              intro hnil
              rw [hnil] at hb
              simp at hb
            have hpos : 0 < c.stackS.length := List.length_pos.mpr h1
            simp only [List.length_dropLast]
            omega

/-!
Claim theorems.
-/

/-- C1: the LIRS engine does NOT keep the resident count within its
capacity.  Starting from a fresh capacity-2 cache, the nine public
operations of `c1State` (`Set 2; Set 1; Remove 2; Set 3; Set 0; Set 2;
Get 2; Set 3; Set 1`) leave three resident entries, so both `Len(false)`
and `Len(true)` report 3 > 2 at a quiescent point.  The final `Set 1`
re-activates a non-resident HIR entry: `evictLeastRecentItem` finds the
queue Q empty and a non-LIR entry at the bottom of S, evicts nothing,
and the entry is made resident anyway. -/
theorem c1_resident_exceeds_capacity :
    c1State.size = 2 ∧ getResidentCount c1State = 3 ∧
    Len c1State false 0 = 3 ∧ Len c1State true 0 = 3 := by decide

/-- C2, counterexample: an entry whose expiration (instant 5) is in the
past of the injected clock (reading 10) makes `Peek` report a miss, and
`Has`/`Len(true)` (real clock at 10) exclude it, but none of these
removes it: the entry is still bound in the map and linked in stack S
on the very state those misses were reported from (`Peek` and `Has`
perform no writes at all in the source, which is why they are pure
functions of the state here). -/
theorem c2_read_paths_leave_expired_entry :
    Peek expiringState 1 10 = Except.error CacheErr.keyNotFound ∧
    Has expiringState 1 10 = false ∧
    Len expiringState true 10 = 0 ∧
    (lookupItem expiringState.items 1).isSome = true ∧
    1 ∈ expiringState.stackS := by decide

/-- C3, counterexample: on a cold cache with a loader, `XCache.Get` is
satisfied by the loader (value 7) and the sharded layer increments
`hit_count` to 1 — a loader success is counted as a hit, not as "a miss
with no hit increment" as the claim states. -/
theorem c3_loader_satisfied_get_increments_hits :
    (XCacheGet freshXCache (some constLoader) 1 0).1 = Except.ok 7 ∧
    (XCacheGet freshXCache (some constLoader) 1 0).2.hitCount = 1 ∧
    (XCacheGet freshXCache (some constLoader) 1 0).2.hitCount ≠ 0 ∧
    (XCacheGet freshXCache (some constLoader) 1 0).2.missCount = 0 := by decide

/-- C5, counterexample: `Remove 2` on the capacity-2 state
`Set 2; Set 1` deletes the only LIR entry from stack S and does not
re-prune, leaving the HIR entry 1 as the bottom of the non-empty
stack. -/
theorem c5_bottom_hir_after_remove :
    hirBottomState.stackS = [1] ∧
    (lookupItem hirBottomState.items 1).map LirsItem.isLIR = some false ∧
    bottomIsLIR hirBottomState = false := by decide

/-- C6, counterexample: constructing the LIRS cache with capacity
`N = 1` sets `maxLirCount` to 0 (the fallback `size - 1`), not to 1 as
the claim states; `maxHirCount` is clamped to 1. -/
theorem c6_capacity_one_maxlir_is_zero :
    (newLIRSCache Nat 1 none).maxLirCount = 0 ∧
    (newLIRSCache Nat 1 none).maxLirCount ≠ 1 ∧
    (newLIRSCache Nat 1 none).maxHirCount = 1 := by decide

/-- C7, counterexample: when the entry for the requested key is already
expired, `Get` removes it during the pre-load lookup and then runs the
loader; if the loader fails, the loader error is returned but the entry
has been removed — the cache state is not unchanged. -/
theorem c7_failed_load_expired_entry_removed :
    (Get expiringState (some failLoader) 1 10).1 =
      Except.error (CacheErr.loaderError 42) ∧
    (lookupItem expiringState.items 1).isSome = true ∧
    lookupItem (Get expiringState (some failLoader) 1 10).2.items 1 = none := by
  decide

/-- C8, counterexample: key 2 of `threeSetState` is tracked but
non-resident (it was evicted from the front of Q), yet `Remove 2`
returns `true` — `Remove` reports map membership, not "resident and
non-expired" as the claim states. -/
theorem c8_remove_returns_true_for_nonresident :
    (Remove threeSetState 2).1 = true ∧
    (lookupItem threeSetState.items 2).map LirsItem.isResident = some false := by
  decide

/-- C9: expiry is judged against two different clocks.  On
`expiringState` (expiration instant 5, set through the injected clock),
`Get` at injected-clock reading 10 reports the entry expired — a miss —
and removes it, while `Has` evaluated at real-system-clock reading 3
still returns `true` on the same state; `Len(true)` with the real clock
also still counts it. -/
theorem c9_get_misses_while_has_hits :
    (Get expiringState none 1 10).1 = Except.error CacheErr.keyNotFound ∧
    lookupItem (Get expiringState none 1 10).2.items 1 = none ∧
    Has expiringState 1 3 = true ∧
    Peek expiringState 1 10 = Except.error CacheErr.keyNotFound ∧
    Len expiringState true 3 = 1 := by decide

/-- C10: in `threeSetState` (capacity 2, `Set 1; Set 2; Set 3`) key 2
was evicted from the front of Q: it is non-resident yet still in the
map, so `Keys(false)` lists it while `GetALL(false)` omits it and
`Len(false)` does not count it — `Keys(false)` returns strictly more
keys than `Len(false)`. -/
theorem c10_keys_exceed_len :
    (lookupItem threeSetState.items 2).map LirsItem.isResident = some false ∧
    2 ∈ Keys threeSetState false 0 ∧
    (GetALL threeSetState false 0).map Prod.fst = [1, 3] ∧
    Len threeSetState false 0 = 2 ∧
    (Keys threeSetState false 0).length = 3 ∧
    Len threeSetState false 0 < (Keys threeSetState false 0).length := by decide

/-- C2, amended: on the `get` path a detected-expired entry (per the
injected clock) is removed from the map, from stack S and from queue Q
before the miss is reported; `peek`, `has` and the `has`-based
`len(true)`/`keys(true)` views report the miss / exclude the entry but
do not remove it (those methods perform no writes). -/
theorem c2_expiry_amended (c : LIRSCache Nat) (k : Nat) (it : LirsItem Nat)
    (fakeNow realNow : Int) (hwf : wfCheck c = true)
    (hit : lookupItem c.items k = some it)
    (hexp : it.IsExpired none fakeNow = true) :
    (getValue c k false fakeNow).1 = Except.error CacheErr.keyNotFound ∧
    lookupItem (getValue c k false fakeNow).2.items k = none ∧
    k ∉ (getValue c k false fakeNow).2.stackS ∧
    k ∉ (getValue c k false fakeNow).2.queueQ ∧
    Peek c k fakeNow = Except.error CacheErr.keyNotFound ∧
    (it.IsExpired (some realNow) realNow = true →
      hasK c k realNow = false ∧ k ∉ Keys c true realNow) := by
  have hred : (getValue c k false fakeNow).1 = Except.error CacheErr.keyNotFound ∧
      (getValue c k false fakeNow).2.items = (removeItem c k).items ∧
      (getValue c k false fakeNow).2.stackS = (removeItem c k).stackS ∧
      (getValue c k false fakeNow).2.queueQ = (removeItem c k).queueQ := by
    simp [getValue, hit, hexp]
  refine ⟨hred.1, ?_, ?_, ?_, ?_, ?_⟩
  · rw [hred.2.1]
    exact removeItem_lookup_self c k
  · rw [hred.2.2.1]
    exact removeItem_not_mem_stack c k hwf
  · rw [hred.2.2.2]
    exact removeItem_not_mem_queue c k hwf
  · simp [Peek, hit, hexp]
  · intro hexp2
    refine ⟨by simp [hasK, hit, hexp2], ?_⟩
    intro hmem
    simp only [Keys, List.mem_map, List.mem_filter] at hmem
    obtain ⟨p, ⟨hp, hpass⟩, hfst⟩ := hmem
    rw [hfst] at hpass
    simp [hasK, hit, hexp2] at hpass

/-- Witness for `c2_expiry_amended` at the concrete expired state. -/
theorem c2_expiry_amended_witness :
    (getValue expiringState 1 false 10).1 = Except.error CacheErr.keyNotFound ∧
    lookupItem (getValue expiringState 1 false 10).2.items 1 = none ∧
    1 ∉ (getValue expiringState 1 false 10).2.stackS ∧
    1 ∉ (getValue expiringState 1 false 10).2.queueQ ∧
    Peek expiringState 1 10 = Except.error CacheErr.keyNotFound ∧
    ((LirsItem.mk 1 7 (some 5) true true true false).IsExpired (some 20) 20 = true →
      hasK expiringState 1 20 = false ∧ 1 ∉ Keys expiringState true 20) :=
  c2_expiry_amended expiringState 1 (LirsItem.mk 1 7 (some 5) true true true false)
    10 20 (by decide) (by decide) (by decide)

/-- C3, amended: at the sharded layer, a key-not-found miss increments
only `miss_count`; a loader error increments neither counter; and any
bucket-returned value — including one obtained from the loader —
increments `hit_count` before the typed conversion, so a loader-
satisfied call counts as a hit and a value failing the `V` type
assertion is still counted as a hit (the call then returns the type-
assertion error).  The same holds for `GetIFPresent`. -/
theorem c3_sharded_stats_amended (x : XCacheSt) (loader : Option (LirsLoader GoVal))
    (k : Nat) (fakeNow : Int) :
    ((Get x.bucket loader k fakeNow).1 = Except.error CacheErr.keyNotFound →
      (XCacheGet x loader k fakeNow).2.missCount = x.missCount + 1 ∧
      (XCacheGet x loader k fakeNow).2.hitCount = x.hitCount) ∧
    (∀ e, (Get x.bucket loader k fakeNow).1 = Except.error (CacheErr.loaderError e) →
      (XCacheGet x loader k fakeNow).2.missCount = x.missCount ∧
      (XCacheGet x loader k fakeNow).2.hitCount = x.hitCount) ∧
    (∀ v, (Get x.bucket loader k fakeNow).1 = Except.ok v →
      (XCacheGet x loader k fakeNow).2.hitCount = x.hitCount + 1 ∧
      (XCacheGet x loader k fakeNow).2.missCount = x.missCount ∧
      (asInt v = none →
        (XCacheGet x loader k fakeNow).1 =
          Except.error CacheErr.typeAssertionFailed)) ∧
    ((GetIFPresent x.bucket loader k fakeNow).1 = Except.error CacheErr.keyNotFound →
      (XCacheGetIFPresent x loader k fakeNow).2.missCount = x.missCount + 1 ∧
      (XCacheGetIFPresent x loader k fakeNow).2.hitCount = x.hitCount) ∧
    (∀ e, (GetIFPresent x.bucket loader k fakeNow).1 =
        Except.error (CacheErr.loaderError e) →
      (XCacheGetIFPresent x loader k fakeNow).2.missCount = x.missCount ∧
      (XCacheGetIFPresent x loader k fakeNow).2.hitCount = x.hitCount) ∧
    (∀ v, (GetIFPresent x.bucket loader k fakeNow).1 = Except.ok v →
      (XCacheGetIFPresent x loader k fakeNow).2.hitCount = x.hitCount + 1 ∧
      (XCacheGetIFPresent x loader k fakeNow).2.missCount = x.missCount ∧
      (asInt v = none →
        (XCacheGetIFPresent x loader k fakeNow).1 =
          Except.error CacheErr.typeAssertionFailed)) := by
  refine ⟨?_, ?_, ?_, ?_, ?_, ?_⟩
  · intro h
    simp [XCacheGet, h]
  · intro e h
    simp [XCacheGet, h]
  · intro v h
    cases ha : asInt v <;> simp [XCacheGet, h, ha]
  · intro h
    simp [XCacheGetIFPresent, h]
  · intro e h
    simp [XCacheGetIFPresent, h]
  · intro v h
    cases ha : asInt v <;> simp [XCacheGetIFPresent, h, ha]

/-- Witness for `c3_sharded_stats_amended`: the loader-satisfied call
on a cold cache is counted as a hit. -/
theorem c3_sharded_stats_amended_witness :
    (Get freshXCache.bucket (some constLoader) 1 0).1 = Except.ok (GoVal.vInt 7) ∧
    (XCacheGet freshXCache (some constLoader) 1 0).2.hitCount =
      freshXCache.hitCount + 1 ∧
    (XCacheGet freshXCache (some constLoader) 1 0).2.missCount =
      freshXCache.missCount :=
  ⟨by decide,
   ((c3_sharded_stats_amended freshXCache (some constLoader) 1 0).2.2.1
      (GoVal.vInt 7) (by decide)).1,
   ((c3_sharded_stats_amended freshXCache (some constLoader) 1 0).2.2.1
      (GoVal.vInt 7) (by decide)).2.1⟩

/-- C4: `Peek` returns the stored value exactly when the entry is
resident and non-expired (per the injected clock).  The engine method
performs no writes, so it is a pure function of the state in this
embedding; the sharded `XCache.Peek` wrapper likewise returns the shard
state — in particular `hit_count` and `miss_count` — unchanged, and
consecutive Peeks therefore agree. -/
theorem c4_peek_exact_and_pure :
    (∀ (c : LIRSCache Nat) (k : Nat) (fakeNow : Int) (v : Nat),
      Peek c k fakeNow = Except.ok v ↔
        ∃ it, lookupItem c.items k = some it ∧ it.isResident = true ∧
          it.IsExpired none fakeNow = false ∧ v = it.value) ∧
    (∀ (x : XCacheSt) (k : Nat) (fakeNow : Int),
      (XCachePeek x k fakeNow).2 = x ∧
      XCachePeek (XCachePeek x k fakeNow).2 k fakeNow = XCachePeek x k fakeNow) := by
  constructor
  · intro c k fakeNow v
    cases h : lookupItem c.items k with
    | none => simp [Peek, h]
    | some it =>
      by_cases hc : (!it.IsExpired none fakeNow && it.isResident) = true
      · have hr : Peek c k fakeNow = Except.ok it.value := by
          simp only [Peek, h, hc, if_true]
        simp only [Bool.and_eq_true, Bool.not_eq_true'] at hc
        rw [hr]
        constructor
        · intro h2
          injection h2 with h2
          exact ⟨it, rfl, hc.2, hc.1, h2.symm⟩
        · rintro ⟨it2, hit2, hres, hexp, hv⟩
          injection hit2 with hit2
          subst hit2
          subst hv
          rfl
      · have hr : Peek c k fakeNow = Except.error CacheErr.keyNotFound := by
          simp only [Peek, h]
          rw [if_neg hc]
        simp only [Bool.and_eq_true, Bool.not_eq_true'] at hc
        rw [hr]
        constructor
        · intro h2
          exact Except.noConfusion h2
        · rintro ⟨it2, hit2, hres, hexp, hv⟩
          injection hit2 with hit2
          subst hit2
          exact absurd ⟨hexp, hres⟩ hc
  · intro x k fakeNow
    have hfr : (XCachePeek x k fakeNow).2 = x := by
      cases hp : Peek x.bucket k fakeNow with
      | error e => simp [XCachePeek, hp]
      | ok v => cases ha : asInt v <;> simp [XCachePeek, hp, ha]
    exact ⟨hfr, by rw [hfr]⟩

/-- Witness for `c4_peek_exact_and_pure` on concrete states. -/
theorem c4_peek_exact_and_pure_witness :
    Peek expiringState 1 0 = Except.ok 7 ∧
    (XCachePeek freshXCache 1 0).2 = freshXCache :=
  ⟨(c4_peek_exact_and_pure.1 expiringState 1 0 7).mpr
      ⟨LirsItem.mk 1 7 (some 5) true true true false, by decide, rfl, by decide, rfl⟩,
   (c4_peek_exact_and_pure.2 freshXCache 1 0).1⟩

/-- C5, amended: after `pruneStack` itself the bottom of S is an LIR
entry or S is empty (given that every stacked key is bound in the map,
as in every reachable state), and pruning preserves the key set of the
item map exactly — pruned non-resident HIR entries are NOT deleted from
the map, only their stack link is cleared.  Operations that alter S
without re-pruning (such as `Remove`, see the counterexample) can still
leave a HIR entry at the bottom. -/
theorem c5_prune_contract_amended (c : LIRSCache Nat)
    (hkeys : ∀ k ∈ c.stackS, (lookupItem c.items k).isSome = true) :
    bottomIsLIR (pruneStack c) = true ∧
    (pruneStack c).items.map Prod.fst = c.items.map Prod.fst :=
  ⟨pruneStackAux_bottom _ c hkeys le_rfl, pruneStackAux_items_fst _ c⟩

/-- Witness for `c5_prune_contract_amended` at a concrete state. -/
theorem c5_prune_contract_amended_witness :
    (∀ k ∈ threeSetState.stackS, (lookupItem threeSetState.items k).isSome = true) ∧
    bottomIsLIR (pruneStack threeSetState) = true ∧
    (pruneStack threeSetState).items.map Prod.fst =
      threeSetState.items.map Prod.fst :=
  ⟨by decide, c5_prune_contract_amended threeSetState (by decide)⟩

/-- C6, amended: for capacity `N ≥ 2` the constructor sets
`maxLirCount = ⌊0.99·N⌋` (which is then at least 1, so the fallback is
inert), while for `N = 1` it sets `maxLirCount = N − 1 = 0` — not 1;
`maxHirCount = N − maxLirCount`, and it is at least 1 without the clamp
ever binding. -/
theorem c6_constructor_params_amended (N : Nat) (hN : 1 ≤ N) :
    (newLIRSCache Nat N none).size = N ∧
    (newLIRSCache Nat N none).maxLirCount =
      (if N = 1 then 0 else (((99 * N) / 100 : Nat) : Int)) ∧
    (newLIRSCache Nat N none).maxHirCount =
      (N : Int) - (newLIRSCache Nat N none).maxLirCount ∧
    1 ≤ (newLIRSCache Nat N none).maxHirCount := by
  by_cases h1 : N = 1
  · subst h1
    exact ⟨rfl, by decide, by decide, by decide⟩
  · have h2 : 2 ≤ N := by omega
    have hq1 : 1 ≤ (99 * N) / 100 := by omega
    have hqN : (99 * N) / 100 + 1 ≤ N := by omega
    have hnlt : ¬ ((((99 * N) / 100 : Nat) : Int) < 1) := by
      simp only [not_lt]
      exact_mod_cast hq1
    have hsub : ¬ ((N : Int) - (((99 * N) / 100 : Nat) : Int) < 1) := by
      simp only [not_lt]
      omega
    refine ⟨rfl, ?_, ?_, ?_⟩
    · simp only [newLIRSCache, hnlt, if_false, if_neg h1]
    · simp only [newLIRSCache, hnlt, hsub, if_false]
    · simp only [newLIRSCache, hnlt, hsub, if_false]
      omega

/-- Witness for `c6_constructor_params_amended` at `N = 5`. -/
theorem c6_constructor_params_amended_witness :
    1 ≤ 5 ∧
    ((newLIRSCache Nat 5 none).size = 5 ∧
     (newLIRSCache Nat 5 none).maxLirCount =
       (if 5 = 1 then 0 else (((99 * 5) / 100 : Nat) : Int)) ∧
     (newLIRSCache Nat 5 none).maxHirCount =
       (5 : Int) - (newLIRSCache Nat 5 none).maxLirCount ∧
     1 ≤ (newLIRSCache Nat 5 none).maxHirCount) :=
  ⟨by decide, c6_constructor_params_amended 5 (by decide)⟩

/-- C7, amended: when the loader fails for `k`, `Get` returns the
loader error and inserts or updates nothing — the state after the call
is exactly the state the pre-load lookup produced; in particular, when
no entry for `k` exists or the existing entry is not expired, the item
map, stack S, queue Q and `lirCount` are all unchanged.  (The only
state change a failed load can be preceded by is the lazy-expiration
removal of an already-expired entry for `k`, see the counterexample.) -/
theorem c7_loader_error_amended (c : LIRSCache Nat) (f : LirsLoader Nat) (k : Nat)
    (fakeNow : Int) (e : Nat) (hf : f k = Except.error e)
    (hmiss : (getValue c k false fakeNow).1 = Except.error CacheErr.keyNotFound) :
    (Get c (some f) k fakeNow).1 = Except.error (CacheErr.loaderError e) ∧
    (Get c (some f) k fakeNow).2 = (getValue c k false fakeNow).2 ∧
    (lookupItem c.items k = none →
      (Get c (some f) k fakeNow).2.items = c.items ∧
      (Get c (some f) k fakeNow).2.stackS = c.stackS ∧
      (Get c (some f) k fakeNow).2.queueQ = c.queueQ ∧
      (Get c (some f) k fakeNow).2.lirCount = c.lirCount) ∧
    (∀ it, lookupItem c.items k = some it → it.IsExpired none fakeNow = false →
      (Get c (some f) k fakeNow).2.items = c.items ∧
      (Get c (some f) k fakeNow).2.stackS = c.stackS ∧
      (Get c (some f) k fakeNow).2.queueQ = c.queueQ ∧
      (Get c (some f) k fakeNow).2.lirCount = c.lirCount) := by
  have hget : Get c (some f) k fakeNow =
      (Except.error (CacheErr.loaderError e), (getValue c k false fakeNow).2) := by
    simp only [Get, hmiss, getWithLoader, load, hf]
  refine ⟨by rw [hget], by rw [hget], ?_, ?_⟩
  · intro hnone
    have h2 : (getValue c k false fakeNow).2 =
        { c with missCount := c.missCount + 1 } := by
      simp [getValue, hnone]
    rw [hget, h2]
    exact ⟨rfl, rfl, rfl, rfl⟩
  · intro it hsome hnexp
    have hres : it.isResident = false := by
      by_contra hr
      rw [Bool.not_eq_false] at hr
      have hok : (getValue c k false fakeNow).1 = Except.ok it.value := by
        simp [getValue, hsome, hnexp, hr]
      rw [hok] at hmiss
      exact Except.noConfusion hmiss
    have h2 : (getValue c k false fakeNow).2 =
        { c with missCount := c.missCount + 1 } := by
      simp [getValue, hsome, hnexp, hres]
    rw [hget, h2]
    exact ⟨rfl, rfl, rfl, rfl⟩

/-- Witness for `c7_loader_error_amended` on a cold cache. -/
theorem c7_loader_error_amended_witness :
    (Get (newLIRSCache Nat 2 none) (some failLoader) 1 0).1 =
      Except.error (CacheErr.loaderError 42) ∧
    (Get (newLIRSCache Nat 2 none) (some failLoader) 1 0).2 =
      (getValue (newLIRSCache Nat 2 none) 1 false 0).2 :=
  ⟨(c7_loader_error_amended (newLIRSCache Nat 2 none) failLoader 1 0 42
      (by decide) (by decide)).1,
   (c7_loader_error_amended (newLIRSCache Nat 2 none) failLoader 1 0 42
      (by decide) (by decide)).2.1⟩

/-- C8, amended: `Remove(key)` returns `true` exactly when the key is
bound in the item map — including non-resident ghosts and expired
entries — and it unconditionally unlinks the entry from the map, from
stack S and from queue Q; `evictedFunc` is invoked exactly when the
removed entry was resident. -/
theorem c8_remove_amended (c : LIRSCache Nat) (k : Nat) (hwf : wfCheck c = true) :
    (Remove c k).1 = (lookupItem c.items k).isSome ∧
    lookupItem (Remove c k).2.items k = none ∧
    k ∉ (Remove c k).2.stackS ∧
    k ∉ (Remove c k).2.queueQ ∧
    (Remove c k).2.evictedLog = removeEvictLog c k := by
  obtain ⟨-, -, hks, hkq, -⟩ := wf_parts hwf
  cases h : lookupItem c.items k with
  | none =>
    have hr : Remove c k = (false, c) := by simp [Remove, h]
    rw [hr]
    refine ⟨by simp [h], by simpa using h, ?_, ?_, by simp [removeEvictLog, h]⟩
    · intro hmem
      have := hks k hmem
      simp [h] at this
    · intro hmem
      have := hkq k hmem
      simp [h] at this
  | some it =>
    have hr : Remove c k = (true, removeItem c k) := by simp [Remove, h]
    rw [hr]
    refine ⟨by simp [h], removeItem_lookup_self c k, removeItem_not_mem_stack c k hwf,
      removeItem_not_mem_queue c k hwf, ?_⟩
    show (removeItem c k).evictedLog = _
    exact removeItem_evictedLog c k

/-- Witness for `c8_remove_amended` at the concrete state with a
non-resident entry. -/
theorem c8_remove_amended_witness :
    wfCheck threeSetState = true ∧
    (Remove threeSetState 2).1 = (lookupItem threeSetState.items 2).isSome ∧
    lookupItem (Remove threeSetState 2).2.items 2 = none ∧
    2 ∉ (Remove threeSetState 2).2.stackS ∧
    2 ∉ (Remove threeSetState 2).2.queueQ ∧
    (Remove threeSetState 2).2.evictedLog = removeEvictLog threeSetState 2 :=
  ⟨by decide, c8_remove_amended threeSetState 2 (by decide)⟩

end Xcache
